import Mathlib

/-!
Verification development for the tredis asynchronous Redis client.

Each definition below is a shallow embedding of a function or code path of
the repository, translated from the Python source:

* `src/tredis/client.py` — the cluster-capable execution engine
  (`Client._execute`, `Client._read`, `Client._on_cluster_data_moved`,
  `Client._on_read_only_error`, `Client._eval_expectation`,
  `Client._pick_cluster_host`, `Client._encode_resp`, `Client.__init__`).
* `src/tredis/__init__.py` — the pooled `RedisClient` holding the pipeline
  implementation (`pipeline_start`, `pipeline_execute`, `_pipeline_execute`,
  `_pipeline_add`, `_pipeline_int_is_1`, `_pipeline_is_ok`).
* `src/tredis/common.py` — `maybe_raise_exception`,
  `split_connection_host_port`, `parse_info_value`, `format_info_response`.
* `src/tredis/keys.py` — `KeysMixin.delete`.

Byte strings are modelled as `List Nat` (one entry per byte; the sources only
ever route ASCII payloads through the paths proved about, where Python byte
values and `Char` code points coincide).  Python text strings are modelled as
`List Char`.
-/

set_option maxRecDepth 1000000

/-- Bytes of an ASCII string literal (used to write concrete byte strings). -/
def strBytes (s : String) : List Nat := s.toList.map Char.toNat

/-- Characters of a string literal (model of a Python `str`). -/
def strChars (s : String) : List Char := s.toList

/-- Decimal ASCII bytes of a natural number, as Python `ascii(n)` produces
for `n >= 0`. -/
def asciiNat (n : Nat) : List Nat := (Nat.toDigits 10 n).map Char.toNat

/-- Decimal ASCII bytes of an integer, as Python `ascii(n)` produces. -/
def intAscii (n : Int) : List Nat :=
  if n < 0 then Char.toNat '-' :: asciiNat n.natAbs else asciiNat n.natAbs

/-- The `CRLF = b'\r\n'` constant of `client.py`. -/
def CRLFb : List Nat := [13, 10]

/-- Python `str.split(sep)` with an explicit one-character separator:
adjacent separators produce empty fields, and the result always has one more
field than there are separators. -/
def pySplit (sep : Char) : List Char → List (List Char)
  | [] => [[]]
  | c :: rest =>
    match pySplit sep rest with
    | [] => [[]]
    | cur :: done => if c = sep then [] :: cur :: done else (c :: cur) :: done

/-- Python `int(s)` on a string of decimal digits (the only shape the client
feeds it: port numbers extracted from `ip:port` fields). -/
def parseDigits (cs : List Char) : Nat :=
  cs.foldl (fun acc c => acc * 10 + (Char.toNat c - 48)) 0

/-- Python `s.startswith(p)`. -/
def startsWithStr (p : String) (s : List Char) : Bool :=
  s.take p.toList.length == p.toList

/-- Modelled from the spec: the hash-slot module `tredis/crc16.py` is not
present under `src/` (only its caller `client.py` and its test
`src/tests/crc16_tests.py` are).  Spec §4.2: CRC-16 with polynomial `0x1021`,
initial register `0x0000`, no input/output reflection, no final XOR, each
byte processed MSB-first through the 16-bit register.  This is one byte step:
the byte is XORed into the high byte of the register, then the register is
shifted left eight times, XORing in the polynomial whenever the top bit was
set. -/
def crc16step (crc b : Nat) : Nat :=
  let c := Nat.xor crc ((b % 256) * 256) % 65536
  (List.range 8).foldl
    (fun acc _ =>
      if acc ≥ 32768 then Nat.xor (acc * 2) 0x1021 % 65536 else acc * 2 % 65536)
    c

/-- Modelled from the spec: `crc16.crc16(data)`, folding `crc16step` over the
bytes from register `0x0000` (spec §4.2). -/
def crc16 (data : List Nat) : Nat := data.foldl crc16step 0

/-- `HASH_SLOTS = 16384` from `client.py`. -/
def HASH_SLOTS : Nat := 16384

/-- One leaf of a command-part list handed to `Client._encode_resp`
(`client.py:400-423`).  The source also accepts `str` (encoded to UTF-8
bytes first) and `float`; every call site in the repository passes bytes or
ints, so those two branches are the ones embedded, with `str` arguments
modelled as their bytes. -/
inductive RespArg where
  | bytes (b : List Nat)
  | int (n : Int)

/-- The `bytes` branch of `Client._encode_resp`: frame one bulk string as
`$<len>\r\n<payload>\r\n`. -/
def encodeBulk (b : List Nat) : List Nat :=
  Char.toNat '$' :: (asciiNat b.length ++ CRLFb ++ b ++ CRLFb)

/-- `Client._encode_resp` on one leaf: the `int` branch recurses on the
decimal ASCII form and then takes the `bytes` branch. -/
def encodeArg : RespArg → List Nat
  | .bytes b => encodeBulk b
  | .int n => encodeBulk (intAscii n)

/-- `Client._encode_resp` on a (flat) list value, i.e. `Client._build_command`:
`*<n>\r\n` followed by each encoded leaf.  The source accepts arbitrarily
nested lists; every command built in the repository is a flat list, which is
the case embedded here. -/
def buildCommand (parts : List RespArg) : List Nat :=
  Char.toNat '*' :: (asciiNat parts.length ++ CRLFb ++ (parts.map encodeArg).flatten)

/-- One entry of `Client._cluster` as `_pick_cluster_host` consumes it: the
`ip:port` name the connection is stored under and the slot ranges of the
node (`_Connection.slots`, a list of `[start, end]` pairs). -/
structure ClusterEntry where
  name : String
  slots : List (Nat × Nat)

/-- The hash-slot computation inside `Client._pick_cluster_host`
(`client.py:680`): `crc16.crc16(self._encode_resp(value[1])) % HASH_SLOTS`.
Note the source hashes the RESP-framed encoding of the key (`$<len>\r\n`
prefix and trailing `\r\n` included), not the raw key bytes. -/
def pickCrc (parts : List RespArg) : Nat :=
  crc16 (encodeArg ((parts.drop 1).headD (.bytes []))) % HASH_SLOTS

/-- The slot a raw key's bytes hash to under the store's own algorithm
(spec §4.2 and §8: `slot("123456789") == 0x31c3 mod 16384`). -/
def rawKeySlot (key : List Nat) : Nat := crc16 key % HASH_SLOTS

/-- `Client._pick_cluster_host` (`client.py:673-688`): compute the slot of
`value[1]`, scan the cluster table in order for the first connection owning a
slot range that covers it, and otherwise fall back to the connection with the
lexicographically first name.  Returns `none` only on an empty table (where
the source would raise an `IndexError`). -/
def pickClusterHost (cluster : List ClusterEntry) (parts : List RespArg) : Option String :=
  let crc := pickCrc parts
  match cluster.find? (fun c => c.slots.any fun s => s.1 ≤ crc && crc ≤ s.2) with
  | some c => some c.name
  | none => (List.mergeSort (cluster.map (·.name)) (fun a b => a ≤ b)).head?

/-- A decoded reply value as `hiredis.Reader.gets` returns it to
`Client._read`: an integer, a byte string (statuses and bulk strings alike),
`None` for a nil bulk, or an array of replies. -/
inductive RVal where
  | int (n : Int)
  | bytes (b : List Nat)
  | nil
  | arr (xs : List RVal)

/-- One reply handed to `Client._read`: either a `hiredis.ReplyError`
carrying its message text, or a decoded value. -/
inductive Reply where
  | err (msg : List Char)
  | val (v : RVal)

/-- A `Command.expectation` (`client.py:53-54`): the call sites pass either
an `int` (e.g. `len(keys)` in `KeysMixin.delete`) or a byte string such as
`b'OK'`. -/
inductive Expect where
  | int (n : Int)
  | bytes (b : List Nat)

/-- Python `response == expectation` for the reply/expectation pairs that
occur: equality is by value within a type and `False` across types. -/
def pyEqRE : RVal → Expect → Bool
  | .int n, .int m => n == m
  | .bytes b, .bytes c => b == c
  | _, _ => false

/-- What `Client._read` ultimately stores in the execution future for a
non-error reply: either a Python boolean produced by expectation coercion or
the raw decoded reply. -/
inductive CmdResult where
  | pyBool (b : Bool)
  | raw (v : RVal)

/-- `Client._eval_expectation` (`client.py:425-440`): when the expectation is
an `int` greater than 1 the future gets `response == expectation or response`
(Python `or`: `True` when equal, the raw response otherwise); for every other
expectation it gets the boolean `response == expectation`. -/
def evalExpectation (expectation : Expect) (response : RVal) : CmdResult :=
  match expectation with
  | .int n =>
    if 1 < n then
      if pyEqRE response (.int n) then .pyBool true else .raw response
    else .pyBool (pyEqRE response (.int n))
  | .bytes b => .pyBool (pyEqRE response (.bytes b))

/-- `KeysMixin.delete` (`keys.py:12-30`): the command parts
`[b'DEL'] + list(keys)` and the expectation `len(keys)` it hands to
`Client._execute`. -/
def deleteCommand (keys : List (List Nat)) : List RespArg × Expect :=
  (.bytes (strBytes "DEL") :: keys.map .bytes, .int keys.length)

/-- `common.split_connection_host_port` (`common.py:15-18`): split an
`ip:port` string on `:` and parse the port.  (The source indexes
`parts[1]`; the MOVED payloads it is applied to always contain the colon.) -/
def splitConnHostPort (value : List Char) : List Char × Nat :=
  let parts := pySplit ':' value
  (parts.headD [], parseDigits (parts.getD 1 []))

/-- The node name `_on_cluster_data_moved` (`client.py:531-532`) builds from a
`MOVED <slot> <ip:port>` error message: split the message on spaces, split
field 2 into host and port, and format them back as `host:port`. -/
def movedTargetName (response : List Char) : List Char :=
  let parts := pySplit ' ' response
  let hp := splitConnHostPort (parts.getD 2 [])
  hp.1 ++ ':' :: Nat.toDigits 10 hp.2

/-- What `Client._on_cluster_data_moved` does once it has the target name. -/
inductive MovedAction where
  /-- `self._cluster[name].execute(command._replace(connection=...), future)`:
  the command is re-bound to the named node's connection and re-executed with
  the same future. -/
  | redispatch (name : List Char)
  /-- `raise exceptions.ConnectionError('{} is not connected'.format(name))`:
  the exception escapes into the read callback; no connection is created. -/
  | connErrorRaised (msg : List Char)

/-- `Client._on_cluster_data_moved` (`client.py:519-538`), with the cluster
table abstracted to the list of names `self._cluster` holds connections
under: a known name is re-dispatched to, an unknown one raises
`ConnectionError`. -/
def onClusterDataMoved (cluster : List (List Char)) (response : List Char) : MovedAction :=
  let name := movedTargetName response
  if cluster.contains name then .redispatch name
  else .connErrorRaised (name ++ strChars " is not connected")

/-- The per-command data `Client._read` consults on a non-error reply: the
optional expectation and the optional `format_callback` transform
(`Command.callback`). -/
structure CommandSpec where
  expectation : Option Expect
  transform : Option (RVal → RVal)

/-- The non-error branch of `Client._read` (`client.py:658-663`): a transform
wins, else an expectation is coerced via `_eval_expectation`, else the raw
reply is stored. -/
def applyReadResult (cmd : CommandSpec) (v : RVal) : CmdResult :=
  match cmd.transform with
  | some f => .raw (f v)
  | none =>
    match cmd.expectation with
    | some e => evalExpectation e v
    | none => .raw v

/-- How one command call ends, as observed through its execution future. -/
inductive CallOutcome where
  /-- the future is resolved with a result value -/
  | resolvedResult (r : CmdResult)
  /-- the future is resolved with a `RedisError` -/
  | resolvedError (msg : List Char)
  /-- a `ConnectionError` was raised inside the read callback; the future is
  left unresolved -/
  | raisedConnError (msg : List Char)
  /-- the read-only failover path was entered -/
  | failover
  /-- still waiting on further replies -/
  | pending

/-- The reply-handling loop of one call: `Client._read` (`client.py:648-663`)
applied to the successive replies the call's attempts receive.  A reply whose
error text starts with `MOVED ` goes to `_on_cluster_data_moved`, which (for
a known node) re-executes the same command/future pair, whose next reply
re-enters `_read` — the recursion below.  The first component counts how many
times the command was re-dispatched to another node within this one call. -/
def movedRetryLoop (cluster : List (List Char)) (cmd : CommandSpec) :
    List Reply → Nat × CallOutcome
  | [] => (0, .pending)
  | .err msg :: rest =>
    if startsWithStr "MOVED " msg then
      match onClusterDataMoved cluster msg with
      | .redispatch _ =>
        let p := movedRetryLoop cluster cmd rest
        (p.1 + 1, p.2)
      | .connErrorRaised m => (0, .raisedConnError m)
    else if startsWithStr "READONLY " msg then (0, .failover)
    else (0, .resolvedError msg)
  | .val v :: _ => (0, .resolvedResult (applyReadResult cmd v))

/-- ASCII bytes decoded back to characters, Python `bytes.decode('utf-8')`
restricted to the ASCII payloads the replication-info path consumes. -/
def bytesToChars (b : List Nat) : List Char := b.map Char.ofNat

/-- Python `str.splitlines()` on text using `\r\n`, `\n` or `\r` line ends
(worker: `cur` is the current line, reversed). -/
def pySplitlinesGo : List Char → List Char → List (List Char)
  | cur, [] => if cur.isEmpty then [] else [cur.reverse]
  | cur, '\r' :: '\n' :: rest => cur.reverse :: pySplitlinesGo [] rest
  | cur, '\r' :: rest => cur.reverse :: pySplitlinesGo [] rest
  | cur, '\n' :: rest => cur.reverse :: pySplitlinesGo [] rest
  | cur, c :: rest => pySplitlinesGo (c :: cur) rest

/-- Python `str.splitlines()`. -/
def pySplitlines (s : List Char) : List (List Char) := pySplitlinesGo [] s

/-- Python `s.split(sep, 1)` as the pair (before, after) of the first
occurrence of `sep` (callers check `sep in s` first). -/
def splitFirst (sep : Char) : List Char → List Char × List Char
  | [] => ([], [])
  | c :: rest =>
    if c = sep then ([], rest)
    else
      let p := splitFirst sep rest
      (c :: p.1, p.2)

/-- Python `s.rsplit(sep, 1)` as the pair (before, after) of the last
occurrence of `sep` (callers check `sep in s` first). -/
def rsplitLast (sep : Char) (s : List Char) : List Char × List Char :=
  let p := splitFirst sep s.reverse
  (p.2.reverse, p.1.reverse)

/-- Is `c` an ASCII decimal digit. -/
def isDigitCh (c : Char) : Bool := 48 ≤ c.toNat && c.toNat ≤ 57

/-- Python `int(s)` as the `parse_info_value` try-branch uses it: an optional
sign followed by at least one digit parses, everything else raises
`ValueError` (`none`). -/
def pyIntLit? (s : List Char) : Option Int :=
  match s with
  | '-' :: ds => if !ds.isEmpty && ds.all isDigitCh then some (-(parseDigits ds : Int)) else none
  | '+' :: ds => if !ds.isEmpty && ds.all isDigitCh then some (parseDigits ds : Int) else none
  | ds => if !ds.isEmpty && ds.all isDigitCh then some (parseDigits ds : Int) else none

/-- Does Python `float(s)` succeed, for the literal shapes an INFO reply can
carry (an optional sign, digits and one decimal point; exponent forms do not
occur there). -/
def pyFloatOk (s : List Char) : Bool :=
  let t := if s.headD ' ' == '-' || s.headD ' ' == '+' then s.tail else s
  t.count '.' == 1 && t.all (fun c => isDigitCh c || c == '.') && t.any isDigitCh

/-- A value of the dictionary `common.parse_info_value` produces: an int, a
float (kept as its literal text), a plain string, or a nested
comma/equals-separated dictionary. -/
inductive InfoVal where
  | int (n : Int)
  | float (lit : List Char)
  | str (s : List Char)
  | dict (d : List (List Char × InfoVal))

/-- Python dict assignment `d[k] = v` on an insertion-ordered dict modelled
as an association list: overwrite in place if the key exists, append
otherwise. -/
def dictSet (d : List (List Char × InfoVal)) (k : List Char) (v : InfoVal) :
    List (List Char × InfoVal) :=
  if d.any (fun p => p.1 == k) then d.map (fun p => if p.1 == k then (k, v) else p)
  else d ++ [(k, v)]

/-- Python `d[k]` as an option (`none` is a `KeyError`). -/
def dictGet? (d : List (List Char × InfoVal)) (k : List Char) : Option InfoVal :=
  (d.find? (fun p => p.1 == k)).map (·.2)

/-- `common.parse_info_value` (`common.py:21-40`): values containing a `.`
parse as floats, otherwise as ints; on `ValueError`, values containing `,` or
`=` are parsed as a dictionary of `key=value` rows (a row without `=` raises
an uncaught `ValueError`, `none` here), and anything else stays a string.
`fuel` only bounds the nesting depth of the dictionary recursion and is
passed in larger than any input's depth. -/
def parseInfoValue : Nat → List Char → Option InfoVal
  | 0, _ => none
  | fuel + 1, value =>
    let fallback :=
      if value.contains ',' || value.contains '=' then
        ((pySplit ',' value).foldl
          (fun acc row =>
            match acc with
            | none => none
            | some d =>
              if row.contains '=' then
                match parseInfoValue fuel (rsplitLast '=' row).2 with
                | some v => some (dictSet d (rsplitLast '=' row).1 v)
                | none => none
              else none)
          (some [])).map InfoVal.dict
      else some (.str value)
    if value.contains '.' then
      if pyFloatOk value then some (.float value) else fallback
    else
      match pyIntLit? value with
      | some n => some (.int n)
      | none => fallback

/-- `common.format_info_response` (`common.py:43-57`): decode the reply,
split it into lines, skip blank and `#` comment lines, and enter every
`key:value` line into the result dictionary with the value run through
`parse_info_value`. -/
def formatInfoResponse (value : List Nat) : Option (List (List Char × InfoVal)) :=
  (pySplitlines (bytesToChars value)).foldl
    (fun acc line =>
      match acc with
      | none => none
      | some info =>
        if line.isEmpty || line.headD ' ' == '#' then some info
        else if line.contains ':' then
          match parseInfoValue (line.length + 1) (splitFirst ':' line).2 with
          | some v => some (dictSet info (splitFirst ':' line).1 v)
          | none => none
        else some info)
    (some [])

/-- What the `on_replication_info` callback inside `Client._on_read_only_error`
(`client.py:598-622`) does, as a function of how the `INFO REPLICATION`
query's future resolved. -/
inductive FailoverOutcome where
  /-- `common.maybe_raise_exception` (`common.py:10-12`) re-raises the query's
  exception inside the IOLoop callback, before the old connection is touched;
  the original command's future is never resolved. -/
  | raisedBeforeClose (msg : List Char)
  /-- the old connection was closed, then `info['master_host']` or
  `info['master_port']` raised `KeyError` inside the IOLoop callback; the
  original command's future is never resolved. -/
  | raisedAfterClose
  /-- a new connection to the discovered master is opened and the original
  command is re-bound to it and re-executed when it is ready. -/
  | reconnect (host : InfoVal) (port : InfoVal)

/-- `on_replication_info` (`client.py:598-622`): first
`maybe_raise_exception(failover_future)`, then close the old connection, then
look up `master_host`/`master_port` in the parsed info dictionary and
reconnect there. -/
def onReplicationInfo (outcome : Except (List Char) (List (List Char × InfoVal))) :
    FailoverOutcome :=
  match outcome with
  | .error e => .raisedBeforeClose e
  | .ok info =>
    match dictGet? info (strChars "master_host") with
    | none => .raisedAfterClose
    | some h =>
      match dictGet? info (strChars "master_port") with
      | none => .raisedAfterClose
      | some p => .reconnect h p

/-- Does the failover path go on to re-execute the original command (the only
way the caller's future can ever be resolved again)?  In both raised cases
the exception dies in the IOLoop callback and nothing is ever set on the
caller's future. -/
def failoverTouchesCaller : FailoverOutcome → Bool
  | .reconnect _ _ => true
  | _ => false

/-- Was `self._connection.close()` reached on this failover path? -/
def failoverClosesOldConnection : FailoverOutcome → Bool
  | .raisedBeforeClose _ => false
  | _ => true

/-- The two response processors a pipelined command can carry
(`RedisClient._pipeline_int_is_1` and `_pipeline_is_ok`,
`src/tredis/__init__.py:612-631`). -/
inductive PipeProc where
  | intIs1
  | isOk

/-- Python `value == 1` on a decoded reply. -/
def pyEqInt1 : RVal → Bool
  | .int n => n == 1
  | _ => false

/-- Python `value == b'OK'` on a decoded reply. -/
def pyEqOkBytes : RVal → Bool
  | .bytes b => b == strBytes "OK"
  | _ => false

/-- Apply a pipeline response processor. -/
def applyPipeProc : PipeProc → RVal → Bool
  | .intIs1, v => pyEqInt1 v
  | .isOk, v => pyEqOkBytes v

/-- The pipeline-relevant state of `RedisClient`
(`src/tredis/__init__.py:93-94`): the `_pipeline` active flag and
`_pipeline_commands`, a list of (encoded command, optional processor)
pairs. -/
structure PipeState where
  pipeline : Bool
  commands : List (List Nat × Option PipeProc)

/-- `RedisClient.pipeline_start` (`src/tredis/__init__.py:105-134`): set the
active flag and reset the captured-command list.  The method body raises
nothing, so it always returns `.ok`. -/
def pipelineStart (st : PipeState) : Except (List Char) PipeState :=
  .ok { st with pipeline := true, commands := [] }

/-- `RedisClient._pipeline_add` (`src/tredis/__init__.py:562-570`): append an
(encoded command, processor) pair to the batch. -/
def pipelineAdd (st : PipeState) (commandBytes : List Nat) (proc : Option PipeProc) :
    PipeState :=
  { st with commands := st.commands ++ [(commandBytes, proc)] }

/-- One slot of the pipeline result list `_PipelineResponses.values`: the
exception stored for an error reply, a processed boolean, or the raw
reply. -/
inductive PipeEntryResult where
  | exc (msg : List Char)
  | processed (b : Bool)
  | raw (v : RVal)

/-- The single socket write `_pipeline_execute` performs
(`src/tredis/__init__.py:608-609`): every encoded command concatenated. -/
def pipelineJoinedWrite (st : PipeState) : List Nat :=
  (st.commands.map (·.1)).flatten

/-- The per-entry result `_pipeline_execute` stores for a command with
processor `proc` whose reply outcome is `r`. -/
def pipeEntry (proc : Option PipeProc) (r : Except (List Char) RVal) : PipeEntryResult :=
  match r with
  | .error e => .exc e
  | .ok v =>
    match proc with
    | some p => .processed (applyPipeProc p v)
    | none => .raw v

/-- The `on_response` read loop of `RedisClient._pipeline_execute`
(`src/tredis/__init__.py:577-601`) over the stream of per-entry reply
outcomes: an exception is appended as that entry's result; a value is run
through the processor stored for the entry at the current index; the loop
ends once as many results as commands have accumulated (`none`: the replies
ran out first and the loop is still reading). -/
def pipelineLoop (cmds : List (List Nat × Option PipeProc)) :
    List PipeEntryResult → List (Except (List Char) RVal) → Option (List PipeEntryResult)
  | _, [] => none
  | acc, r :: rest =>
    let acc2 := acc ++ [pipeEntry (cmds.getD acc.length ([], none)).2 r]
    if acc2.length = cmds.length then some acc2 else pipelineLoop cmds acc2 rest

/-- `RedisClient.pipeline_execute` + `_pipeline_execute`
(`src/tredis/__init__.py:136-168` and `572-610`): raise `ValueError` on an
empty batch, otherwise run the read loop; when it completes, the pipeline
flag and the batch are cleared and the collected result list is the
result. -/
def pipelineExecute (st : PipeState) (replies : List (Except (List Char) RVal)) :
    Except (List Char) (Option (List PipeEntryResult) × PipeState) :=
  if st.commands.length = 0 then .error (strChars "Empty pipeline")
  else
    match pipelineLoop st.commands [] replies with
    | some results => .ok (some results, { st with pipeline := false, commands := [] })
    | none => .ok (none, st)


/-- One `{'host': ..., 'port': ..., 'db': ...}` entry of the `hosts` argument
of `Client.__init__`. -/
structure HostSpec where
  host : List Char
  port : Nat
  db : Nat

/-- The externally visible effects `Client.__init__` can perform. -/
inductive InitEffect where
  | connectAttempt

/-- `Client.__init__` (`client.py:282-317`): after the plain attribute
assignments (which perform no I/O), a non-clustering client with more than
one host raises `ValueError`; only after that check does `auto_connect`
trigger `self.connect()`.  Result: the raised error message, if any, paired
with the connection attempts made. -/
def clientInit (hosts : List HostSpec) (clustering autoConnect : Bool) :
    Option (List Char) × List InitEffect :=
  if !clustering && 1 < hosts.length then
    (some (strChars "Too many hosts for non-clustering mode"), [])
  else
    (none, if autoConnect then [.connectAttempt] else [])

/-- Where one command-execution task of `Client._execute`
(`client.py:442-486`) stands.  A task is created per call; `waiting` means
its `self._busy.acquire()` future is queued, `locked` means the acquire
resolved and its `on_locked` callback is pending, `inflight` means
`on_locked` found the client ready and wrote the command (now awaiting the
reply), `aborted` means `on_locked` found the client not ready and returned
without resolving the command future, `done` means the reply was read and
the future resolved. -/
inductive TaskPC where
  | notStarted
  | waiting
  | locked
  | inflight
  | aborted
  | done
deriving DecidableEq

/-- A socket-level event of one connection-owning client: a command's bytes
written, or a command's full reply read. -/
inductive WireEv where
  | write (i : Nat)
  | readDone (i : Nat)
deriving DecidableEq

/-- The state of the execution engine of `client.py`: the per-task program
counters, the FIFO queue of tasks waiting on `self._busy` (a
`tornado.locks.Lock`), whether the lock is held, whether `self.ready` holds,
and the wire trace so far. -/
structure EngineState where
  pc : Nat → TaskPC
  waiters : List Nat
  busy : Bool
  ready : Bool
  trace : List WireEv

/-- Pointwise update of a task program counter map. -/
def updPC (f : Nat → TaskPC) (i : Nat) (v : TaskPC) : Nat → TaskPC :=
  fun j => if j = i then v else f j

/-- One scheduler step of the engine, each rule translated from
`client.py`:

* `issueFree`/`issueBusy` — `_execute` calls `self._busy.acquire()`
  (`client.py:479-482`): a free lock is taken at once, otherwise the task
  joins the lock's FIFO waiter queue.
* `onLockedReady` — `on_locked` (`client.py:460-471`) with `self.ready`
  true: the command is bound to a connection and its bytes are written.
* `onLockedNotReady` — `on_locked` with `self.ready` false
  (`client.py:472-473`): the task only logs and returns; the command future
  is never resolved, so the release callback registered at `client.py:485`
  can never fire.
* `completeGrant`/`completeFree` — the reply is fully read and the future
  resolved (`client.py:637-663`), so the release callback
  (`client.py:485`) runs `self._busy.release()`: the first queued waiter's
  acquire resolves, or the lock becomes free.
* `connClosed`/`connEstablished` — a connection closes unexpectedly
  (`client.py:510-517`, clearing readiness) or (re)connects.

A MOVED/failover retry re-executes the same command with the same
still-unresolved future, so the lock stays held across it; the model's one
write/read pair per command covers the base path, and a retry cannot let a
different command's write interleave because release only ever happens when
a future resolves. -/
inductive EngStep : EngineState → EngineState → Prop where
  | issueFree (s : EngineState) (i : Nat) :
      s.pc i = .notStarted → s.busy = false →
      EngStep s { s with pc := updPC s.pc i .locked, busy := true }
  | issueBusy (s : EngineState) (i : Nat) :
      s.pc i = .notStarted → s.busy = true →
      EngStep s { s with pc := updPC s.pc i .waiting, waiters := s.waiters ++ [i] }
  | onLockedReady (s : EngineState) (i : Nat) :
      s.pc i = .locked → s.ready = true →
      EngStep s { s with pc := updPC s.pc i .inflight, trace := s.trace ++ [.write i] }
  | onLockedNotReady (s : EngineState) (i : Nat) :
      s.pc i = .locked → s.ready = false →
      EngStep s { s with pc := updPC s.pc i .aborted }
  | completeGrant (s : EngineState) (i j : Nat) (rest : List Nat) :
      s.pc i = .inflight → s.waiters = j :: rest →
      EngStep s { s with pc := updPC (updPC s.pc i .done) j .locked, waiters := rest,
                         trace := s.trace ++ [.readDone i] }
  | completeFree (s : EngineState) (i : Nat) :
      s.pc i = .inflight → s.waiters = [] →
      EngStep s { s with pc := updPC s.pc i .done, busy := false,
                         trace := s.trace ++ [.readDone i] }
  | connClosed (s : EngineState) :
      EngStep s { s with ready := false }
  | connEstablished (s : EngineState) :
      EngStep s { s with ready := true }

/-- Zero or more engine steps. -/
inductive EngReaches : EngineState → EngineState → Prop where
  | refl (s : EngineState) : EngReaches s s
  | tail {s t u : EngineState} : EngReaches s t → EngStep t u → EngReaches s u

/-- A freshly connected idle client: no task started, lock free, ready. -/
def engInit : EngineState :=
  { pc := fun _ => .notStarted, waiters := [], busy := false, ready := true, trace := [] }

/-- A task holds or is about to use the lock: its `on_locked` is pending or
its command is in flight. -/
def ActivePC (p : TaskPC) : Prop := p = .locked ∨ p = .inflight

/-- Well-formed wire trace with the currently in-flight writer: writes and
full-reply reads strictly alternate, and an open write is closed by the same
task's read. -/
inductive TraceOK : List WireEv → Option Nat → Prop where
  | nil : TraceOK [] none
  | write {tr : List WireEv} {i : Nat} :
      TraceOK tr none → TraceOK (tr ++ [.write i]) (some i)
  | readDone {tr : List WireEv} {i : Nat} :
      TraceOK tr (some i) → TraceOK (tr ++ [.readDone i]) none

/-- The single-flight wire property: between any two command writes, the
first writer's full reply has been read. -/
def NoInterleave (tr : List WireEv) : Prop :=
  ∀ p q i j, p < q → tr.get? p = some (.write i) → tr.get? q = some (.write j) →
    ∃ r, p < r ∧ r < q ∧ tr.get? r = some (.readDone i)

/-- The inductive invariant of the engine: at most one task is active, the
lock is held while one is, queued waiters are distinct tasks parked in
`waiting`, and the wire trace is alternating with the in-flight task (if
any) owning the open write. -/
structure EngInv (s : EngineState) : Prop where
  uniqActive : ∀ i j, ActivePC (s.pc i) → ActivePC (s.pc j) → i = j
  busyOfActive : ∀ i, ActivePC (s.pc i) → s.busy = true
  waitersWaiting : ∀ i, i ∈ s.waiters → s.pc i = .waiting
  waitersNodup : s.waiters.Nodup
  traceInv : ∃ o, TraceOK s.trace o ∧ ∀ i, o = some i ↔ s.pc i = .inflight

/-- Once the lock is held with no active task left (the aborted-command
state), nothing can ever release it. -/
def EngStuck (s : EngineState) : Prop := s.busy = true ∧ ∀ i, ¬ActivePC (s.pc i)

/-- Task 0 has just taken the free lock (`self._busy.acquire()` resolved
immediately); its `on_locked` callback is pending. -/
def engS1 : EngineState := { engInit with pc := updPC engInit.pc 0 .locked, busy := true }

/-- The connection closed before `on_locked` ran: the client is no longer
ready. -/
def engS2 : EngineState := { engS1 with ready := false }

/-- `on_locked` ran with the client not ready (`client.py:472-473`): task 0
aborted without resolving its future, the lock still held. -/
def engAborted : EngineState := { engS2 with pc := updPC engS2.pc 0 .aborted }

/-- Example pipeline batch modelled on spec §8's
`[SET a 1, INCR missing, GET a]`: a SET with the `is_ok` processor, then two
commands captured without a processor. -/
def pipeExampleCmds : List (List Nat × Option PipeProc) :=
  [(buildCommand [.bytes (strBytes "SET"), .bytes (strBytes "a"), .bytes (strBytes "1")],
    some .isOk),
   (buildCommand [.bytes (strBytes "INCR"), .bytes (strBytes "missing")], none),
   (buildCommand [.bytes (strBytes "GET"), .bytes (strBytes "a")], none)]

/-- Example reply stream for `pipeExampleCmds`: an OK status, an error reply
for the middle entry, and a bulk value. -/
def pipeExampleReplies : List (Except (List Char) RVal) :=
  [.ok (.bytes (strBytes "OK")),
   .error (strChars "ERR value is not an integer or out of range"),
   .ok (.bytes (strBytes "1"))]

theorem get?_some_lt {α : Type} {l : List α} {n : Nat} {a : α} (h : l.get? n = some a) :
    n < l.length := by
  by_contra hn
  rw [List.get?_eq_none.mpr (Nat.le_of_not_lt hn)] at h
  simp at h

theorem get?_last_eq {α : Type} {l : List α} {p : Nat} {a : α}
    (h : l.get? p = some a) (hp : p + 1 = l.length) : l.getLast? = some a := by
  rw [List.getLast?_eq_get?]
  have : l.length - 1 = p := by omega
  rw [this]
  exact h

theorem traceOK_last_write {tr : List WireEv} {i : Nat} (h : TraceOK tr (some i)) :
    tr.getLast? = some (.write i) := by
  cases h with
  | write h' => exact List.getLast?_concat _

theorem traceOK_none_not_write {tr : List WireEv} (h : TraceOK tr none) :
    ∀ i, tr.getLast? ≠ some (.write i) := by
  cases h with
  | nil => intro i hx; simp at hx
  | readDone h' =>
    intro i hx
    rw [List.getLast?_concat] at hx
    simp at hx

theorem traceOK_write_next {tr : List WireEv} {o : Option Nat} (h : TraceOK tr o) :
    ∀ p i, tr.get? p = some (.write i) →
      p + 1 = tr.length ∨ tr.get? (p + 1) = some (.readDone i) := by
  induction h with
  | nil => intro p i hp; simp at hp
  | @write tr' j h' ih =>
    intro p i hp
    rcases Nat.lt_trichotomy p tr'.length with hlt | heq | hgt
    · have hp' : tr'.get? p = some (.write i) := by
        rw [List.get?_append hlt] at hp; exact hp
      rcases ih p i hp' with h1 | h2
      · exact absurd (get?_last_eq hp' h1) (traceOK_none_not_write h' i)
      · have hlt2 : p + 1 < tr'.length := get?_some_lt h2
        right
        rw [List.get?_append hlt2]
        exact h2
    · left
      subst heq
      simp
    · exfalso
      have hnone : (tr' ++ [WireEv.write j]).get? p = none := by
        apply List.get?_eq_none.mpr
        simp only [List.length_append, List.length_cons, List.length_nil]
        omega
      rw [hnone] at hp
      simp at hp
  | @readDone tr' j h' ih =>
    intro p i hp
    rcases Nat.lt_trichotomy p tr'.length with hlt | heq | hgt
    · have hp' : tr'.get? p = some (.write i) := by
        rw [List.get?_append hlt] at hp; exact hp
      rcases ih p i hp' with h1 | h2
      · have hlast := traceOK_last_write h'
        have hlast2 := get?_last_eq hp' h1
        rw [hlast2] at hlast
        have hij : WireEv.write i = WireEv.write j := by
          injection hlast with hx
        have : i = j := by injection hij
        subst this
        right
        rw [h1]
        exact List.get?_concat_length _ _
      · have hlt2 : p + 1 < tr'.length := get?_some_lt h2
        right
        rw [List.get?_append hlt2]
        exact h2
    · exfalso
      subst heq
      rw [List.get?_concat_length] at hp
      simp at hp
    · exfalso
      have hnone : (tr' ++ [WireEv.readDone j]).get? p = none := by
        apply List.get?_eq_none.mpr
        simp only [List.length_append, List.length_cons, List.length_nil]
        omega
      rw [hnone] at hp
      simp at hp

theorem traceOK_noInterleave {tr : List WireEv} {o : Option Nat} (h : TraceOK tr o) :
    NoInterleave tr := by
  intro p q i j hpq hp hq
  have hq_lt : q < tr.length := get?_some_lt hq
  rcases traceOK_write_next h p i hp with h1 | h2
  · omega
  · refine ⟨p + 1, Nat.lt_succ_self p, ?_, h2⟩
    rcases Nat.lt_or_ge (p + 1) q with hlt | hge
    · exact hlt
    · exfalso
      have : p + 1 = q := by omega
      rw [this] at h2
      rw [h2] at hq
      simp at hq


theorem updPC_same (f : Nat → TaskPC) (i : Nat) (v : TaskPC) : updPC f i v i = v := by
  simp [updPC]

theorem updPC_ne (f : Nat → TaskPC) (i : Nat) (v : TaskPC) {j : Nat} (h : j ≠ i) :
    updPC f i v j = f j := by
  simp [updPC, h]

theorem engInv_init : EngInv engInit := by
  refine ⟨?_, ?_, ?_, ?_, ⟨none, TraceOK.nil, ?_⟩⟩
  · intro i j hi _
    rcases hi with h | h <;> simp [engInit] at h
  · intro i hi
    rcases hi with h | h <;> simp [engInit] at h
  · intro i hi
    simp [engInit] at hi
  · simp [engInit]
  · intro i
    simp [engInit]

theorem engInv_step {s t : EngineState} (inv : EngInv s) (hstep : EngStep s t) : EngInv t := by
  obtain ⟨uniq, busyAct, ww, nodup, o, hto, hoiff⟩ := inv
  cases hstep with
  | issueFree i hpc hbusy =>
    have hnoact : ∀ a, ¬ActivePC (s.pc a) := by
      intro a ha
      have hb := busyAct a ha
      rw [hbusy] at hb
      simp at hb
    have honly : ∀ a, ActivePC (updPC s.pc i .locked a) → a = i := by
      intro a ha
      by_cases h : a = i
      · exact h
      · rw [updPC_ne _ _ _ h] at ha
        exact absurd ha (hnoact a)
    refine ⟨?_, ?_, ?_, nodup, o, hto, ?_⟩
    · intro a b ha hb
      dsimp only at ha hb
      rw [honly a ha, honly b hb]
    · intro a _
      rfl
    · intro a haw
      dsimp only at haw ⊢
      have haww := ww a haw
      have hne : a ≠ i := by
        intro he
        rw [he, hpc] at haww
        simp at haww
      rw [updPC_ne _ _ _ hne]
      exact haww
    · intro a
      dsimp only
      by_cases h : a = i
      · subst h
        rw [updPC_same]
        constructor
        · intro hoa
          have hx := (hoiff a).mp hoa
          rw [hpc] at hx
          simp at hx
        · intro hx
          simp at hx
      · rw [updPC_ne _ _ _ h]
        exact hoiff a
  | issueBusy i hpc hbusy =>
    refine ⟨?_, ?_, ?_, ?_, o, hto, ?_⟩
    · intro a b ha hb
      dsimp only at ha hb
      have hne : ∀ c, ActivePC (updPC s.pc i .waiting c) → c ≠ i := by
        intro c hc he
        subst he
        rw [updPC_same] at hc
        rcases hc with h | h <;> simp at h
      have ha' : ActivePC (s.pc a) := by
        have := hne a ha
        rwa [updPC_ne _ _ _ this] at ha
      have hb' : ActivePC (s.pc b) := by
        have := hne b hb
        rwa [updPC_ne _ _ _ this] at hb
      exact uniq a b ha' hb'
    · intro a _
      exact hbusy
    · intro a haw
      dsimp only at haw ⊢
      rcases List.mem_append.mp haw with hmem | hmem
      · have haww := ww a hmem
        have hne : a ≠ i := by
          intro he
          rw [he, hpc] at haww
          simp at haww
        rw [updPC_ne _ _ _ hne]
        exact haww
      · have : a = i := List.mem_singleton.mp hmem
        subst this
        rw [updPC_same]
    · dsimp only
      rw [List.nodup_append]
      refine ⟨nodup, List.nodup_singleton i, ?_⟩
      intro a hmem hmem2
      have : a = i := List.mem_singleton.mp hmem2
      subst this
      have := ww a hmem
      rw [hpc] at this
      simp at this
    · intro a
      dsimp only
      by_cases h : a = i
      · subst h
        rw [updPC_same]
        constructor
        · intro hoa
          have hx := (hoiff a).mp hoa
          rw [hpc] at hx
          simp at hx
        · intro hx
          simp at hx
      · rw [updPC_ne _ _ _ h]
        exact hoiff a
  | onLockedReady i hpc hready =>
    have ho_none : o = none := by
      rcases ho : o with _ | k
      · rfl
      · exfalso
        have hk := (hoiff k).mp ho
        have hki := uniq k i (Or.inr hk) (Or.inl hpc)
        rw [hki, hpc] at hk
        simp at hk
    refine ⟨?_, ?_, ?_, nodup, some i, ?_, ?_⟩
    · intro a b ha hb
      dsimp only at ha hb
      have honly : ∀ c, ActivePC (updPC s.pc i .inflight c) → c = i := by
        intro c hc
        by_cases h : c = i
        · exact h
        · rw [updPC_ne _ _ _ h] at hc
          exact uniq c i hc (Or.inl hpc)
      rw [honly a ha, honly b hb]
    · intro a _
      exact busyAct i (Or.inl hpc)
    · intro a haw
      dsimp only at haw ⊢
      have haww := ww a haw
      have hne : a ≠ i := by
        intro he
        rw [he, hpc] at haww
        simp at haww
      rw [updPC_ne _ _ _ hne]
      exact haww
    · dsimp only
      rw [ho_none] at hto
      exact TraceOK.write hto
    · intro a
      dsimp only
      by_cases h : a = i
      · subst h
        rw [updPC_same]
        simp
      · rw [updPC_ne _ _ _ h]
        constructor
        · intro hx
          have : i = a := by injection hx
          exact absurd this.symm h
        · intro hx
          have := (hoiff a).mpr hx
          rw [ho_none] at this
          simp at this
  | onLockedNotReady i hpc hready =>
    have ho_none : o = none := by
      rcases ho : o with _ | k
      · rfl
      · exfalso
        have hk := (hoiff k).mp ho
        have hki := uniq k i (Or.inr hk) (Or.inl hpc)
        rw [hki, hpc] at hk
        simp at hk
    have hact : ∀ c, ActivePC (updPC s.pc i .aborted c) → ActivePC (s.pc c) := by
      intro c hc
      by_cases h : c = i
      · subst h
        rw [updPC_same] at hc
        rcases hc with h | h <;> simp at h
      · rwa [updPC_ne _ _ _ h] at hc
    refine ⟨?_, ?_, ?_, nodup, o, hto, ?_⟩
    · intro a b ha hb
      dsimp only at ha hb
      exact uniq a b (hact a ha) (hact b hb)
    · intro a ha
      dsimp only at ha
      exact busyAct a (hact a ha)
    · intro a haw
      dsimp only at haw ⊢
      have haww := ww a haw
      have hne : a ≠ i := by
        intro he
        rw [he, hpc] at haww
        simp at haww
      rw [updPC_ne _ _ _ hne]
      exact haww
    · intro a
      dsimp only
      by_cases h : a = i
      · subst h
        rw [updPC_same, ho_none]
        simp
      · rw [updPC_ne _ _ _ h]
        exact hoiff a
  | completeGrant i j rest hpc hw =>
    have hjmem : j ∈ s.waiters := by
      rw [hw]
      exact List.mem_cons_self j rest
    have hpcj : s.pc j = .waiting := ww j hjmem
    have hij : i ≠ j := by
      intro he
      rw [he, hpcj] at hpc
      simp at hpc
    have ho_eq : o = some i := (hoiff i).mpr hpc
    have hjrest : j ∉ rest := by
      have hn := nodup
      rw [hw] at hn
      exact (List.nodup_cons.mp hn).1
    refine ⟨?_, ?_, ?_, ?_, none, ?_, ?_⟩
    · intro a b ha hb
      dsimp only at ha hb
      have honly : ∀ c, ActivePC (updPC (updPC s.pc i .done) j .locked c) → c = j := by
        intro c hc
        by_cases h : c = j
        · exact h
        · rw [updPC_ne _ _ _ h] at hc
          by_cases h2 : c = i
          · subst h2
            rw [updPC_same] at hc
            rcases hc with hx | hx <;> simp at hx
          · rw [updPC_ne _ _ _ h2] at hc
            exact absurd (uniq c i hc (Or.inr hpc)) h2
      rw [honly a ha, honly b hb]
    · intro a _
      exact busyAct i (Or.inr hpc)
    · intro a haw
      dsimp only at haw ⊢
      have hamem : a ∈ s.waiters := by
        rw [hw]
        exact List.mem_cons_of_mem j haw
      have haww := ww a hamem
      have hnej : a ≠ j := fun he => hjrest (he ▸ haw)
      have hnei : a ≠ i := by
        intro he
        rw [he, hpc] at haww
        simp at haww
      rw [updPC_ne _ _ _ hnej, updPC_ne _ _ _ hnei]
      exact haww
    · dsimp only
      have hn := nodup
      rw [hw] at hn
      exact (List.nodup_cons.mp hn).2
    · dsimp only
      rw [ho_eq] at hto
      exact TraceOK.readDone hto
    · intro a
      dsimp only
      constructor
      · intro hx
        simp at hx
      · intro hx
        exfalso
        by_cases h : a = j
        · subst h
          rw [updPC_same] at hx
          simp at hx
        · rw [updPC_ne _ _ _ h] at hx
          by_cases h2 : a = i
          · subst h2
            rw [updPC_same] at hx
            simp at hx
          · rw [updPC_ne _ _ _ h2] at hx
            have hoa := (hoiff a).mpr hx
            rw [ho_eq] at hoa
            have : i = a := by injection hoa
            exact h2 this.symm
  | completeFree i hpc hw =>
    have ho_eq : o = some i := (hoiff i).mpr hpc
    have hnone : ∀ a, ¬ActivePC (updPC s.pc i .done a) := by
      intro a ha
      by_cases h : a = i
      · subst h
        rw [updPC_same] at ha
        rcases ha with hx | hx <;> simp at hx
      · rw [updPC_ne _ _ _ h] at ha
        exact h (uniq a i ha (Or.inr hpc))
    refine ⟨?_, ?_, ?_, nodup, none, ?_, ?_⟩
    · intro a b ha hb
      dsimp only at ha hb
      exact absurd ha (hnone a)
    · intro a ha
      dsimp only at ha
      exact absurd ha (hnone a)
    · intro a haw
      dsimp only at haw
      rw [hw] at haw
      simp at haw
    · dsimp only
      rw [ho_eq] at hto
      exact TraceOK.readDone hto
    · intro a
      dsimp only
      constructor
      · intro hx
        simp at hx
      · intro hx
        exfalso
        exact hnone a (Or.inr hx)
  | connClosed =>
    exact ⟨uniq, busyAct, ww, nodup, o, hto, hoiff⟩
  | connEstablished =>
    exact ⟨uniq, busyAct, ww, nodup, o, hto, hoiff⟩

theorem engInv_reaches {s : EngineState} (h : EngReaches engInit s) : EngInv s := by
  induction h with
  | refl => exact engInv_init
  | tail _ hstep ih => exact engInv_step ih hstep

theorem engStuck_step {s t : EngineState} (hs : EngStuck s) (hstep : EngStep s t) :
    EngStuck t := by
  obtain ⟨hbusy, hact⟩ := hs
  cases hstep with
  | issueFree i hpc hb =>
    rw [hbusy] at hb
    simp at hb
  | issueBusy i hpc hb =>
    refine ⟨hbusy, ?_⟩
    intro a ha
    dsimp only at ha
    by_cases h : a = i
    · subst h
      rw [updPC_same] at ha
      rcases ha with h | h <;> simp at h
    · rw [updPC_ne _ _ _ h] at ha
      exact hact a ha
  | onLockedReady i hpc _ =>
    exact absurd (Or.inl hpc) (hact i)
  | onLockedNotReady i hpc _ =>
    exact absurd (Or.inl hpc) (hact i)
  | completeGrant i j rest hpc _ =>
    exact absurd (Or.inr hpc) (hact i)
  | completeFree i hpc _ =>
    exact absurd (Or.inr hpc) (hact i)
  | connClosed =>
    exact ⟨hbusy, hact⟩
  | connEstablished =>
    exact ⟨hbusy, hact⟩

theorem engStuck_reaches {s t : EngineState} (hs : EngStuck s) (h : EngReaches s t) :
    EngStuck t := by
  induction h with
  | refl => exact hs
  | tail _ hstep ih => exact engStuck_step ih hstep

theorem pipelineLoop_spec (cmds : List (List Nat × Option PipeProc)) :
    ∀ replies : List (Except (List Char) RVal), replies ≠ [] →
      ∀ acc : List PipeEntryResult, acc.length + replies.length = cmds.length →
      pipelineLoop cmds acc replies =
        some (acc ++ List.zipWith (fun c r => pipeEntry c.2 r) (cmds.drop acc.length) replies) := by
  intro replies
  induction replies with
  | nil => intro hne; exact absurd rfl hne
  | cons r rest ih =>
    intro _ acc hlen
    have hlt : acc.length < cmds.length := by
      simp only [List.length_cons] at hlen
      omega
    have hgetD : cmds.getD acc.length ([], none) = cmds[acc.length] :=
      List.getD_eq_getElem cmds ([], none) hlt
    have hdrop : cmds.drop acc.length = cmds[acc.length] :: cmds.drop (acc.length + 1) :=
      List.drop_eq_getElem_cons hlt
    simp only [pipelineLoop, hgetD, hdrop, List.zipWith_cons_cons]
    split
    · rename_i hcond
      have hrest : rest = [] := by
        simp only [List.length_append, List.length_cons, List.length_nil] at hcond hlen
        have : rest.length = 0 := by omega
        exact List.eq_nil_of_length_eq_zero this
      subst hrest
      simp
    · rename_i hcond
      have hlen2 :
          (acc ++ [pipeEntry cmds[acc.length].2 r]).length + rest.length = cmds.length := by
        simp only [List.length_append, List.length_cons, List.length_nil] at hlen hcond ⊢
        omega
      have hrne : rest ≠ [] := by
        intro hx
        subst hx
        simp only [List.length_append, List.length_cons, List.length_nil] at hlen hcond
        omega
      rw [ih hrne _ hlen2]
      have hlenapp : (acc ++ [pipeEntry cmds[acc.length].2 r]).length = acc.length + 1 := by
        simp
      rw [hlenapp, List.append_assoc, List.singleton_append]

/-- Sanity check against `src/tests/crc16_tests.py`: the spec-modelled CRC-16
reproduces the expected vectors for `b"123456789"` and for the UTF-8 bytes
`b"\xe2\x9c\x88"`. -/
theorem crc16_matches_test_vectors :
    crc16 (strBytes "123456789") = 0x31c3 ∧
    crc16 [0xe2, 0x9c, 0x88] = 0x8357 := by
  refine ⟨by decide, by decide⟩

/-- C1: the claim says cluster routing hashes the command's raw key bytes, so
that `b"123456789"` maps to slot `0x31c3`.  The CRC itself (spec-modelled)
does map the raw key to `0x31c3`, but `Client._pick_cluster_host` hashes the
RESP-framed encoding `b"$9\r\n123456789\r\n"` instead, giving slot 5087, and
so routes the command to the node owning slot 5087 rather than the owner of
slot `0x31c3`. -/
theorem c1_cluster_hashes_framed_key :
    crc16 (strBytes "123456789") = 0x31c3 ∧
    rawKeySlot (strBytes "123456789") = 0x31c3 ∧
    pickCrc [.bytes (strBytes "GET"), .bytes (strBytes "123456789")] = 5087 ∧
    pickCrc [.bytes (strBytes "GET"), .bytes (strBytes "123456789")] ≠
      rawKeySlot (strBytes "123456789") ∧
    pickClusterHost
        [{ name := "10.0.0.1:7000", slots := [(0x31c3, 0x31c3)] },
         { name := "10.0.0.2:7001", slots := [(0, 0x31c2), (0x31c4, 0x3fff)] }]
        [.bytes (strBytes "GET"), .bytes (strBytes "123456789")] = some "10.0.0.2:7001" := by
  refine ⟨by decide, by decide, by decide, by decide, by decide⟩

/-- C2: in every state reachable by the execution engine, at most one command
is in flight, and the wire trace never shows a second command's write before
the first command's full reply was read. -/
theorem c2_single_flight (s : EngineState) (h : EngReaches engInit s) :
    NoInterleave s.trace ∧
      ∀ i j, s.pc i = .inflight → s.pc j = .inflight → i = j := by
  obtain ⟨uniq, _, _, _, o, hto, hoiff⟩ := engInv_reaches h
  exact ⟨traceOK_noInterleave hto, fun i j hi hj => uniq i j (Or.inr hi) (Or.inr hj)⟩

theorem c2_single_flight_witness : NoInterleave engInit.trace :=
  (c2_single_flight engInit (EngReaches.refl engInit)).1

/-- C3: the not-ready abort path of `_execute` is reachable (acquire the
lock, lose the connection, then run `on_locked`), and from the resulting
state the execution lock is never released again: the aborted command's
future is never resolved, so the release callback of `client.py:485` never
fires, contradicting the claim that every path eventually releases the
lock. -/
theorem c3_aborted_lock_never_released :
    EngReaches engInit engAborted ∧
      ∀ s, EngReaches engAborted s → s.busy = true := by
  constructor
  · exact EngReaches.tail
      (EngReaches.tail
        (EngReaches.tail (EngReaches.refl engInit) (EngStep.issueFree engInit 0 rfl rfl))
        (EngStep.connClosed engS1))
      (EngStep.onLockedNotReady engS2 0 rfl rfl)
  · intro s hs
    have hstuck : EngStuck engAborted := by
      refine ⟨rfl, ?_⟩
      intro i hi
      by_cases h : i = 0
      · subst h
        rw [show engAborted.pc 0 = TaskPC.aborted from rfl] at hi
        rcases hi with h | h <;> simp at h
      · have hpc : engAborted.pc i = .notStarted := by
          simp [engAborted, engS2, engS1, engInit, updPC, h]
        rw [hpc] at hi
        rcases hi with h | h <;> simp at h
    exact (engStuck_reaches hstuck hs).1

/-- C4 counterexample: one call whose attempts are answered `MOVED`, `MOVED`,
then `OK` is re-dispatched twice — more than the one redirection retry per
call the claim allows — and the second `MOVED` is consumed by another
internal retry instead of being surfaced to the caller. -/
theorem c4_two_redirections_one_call :
    movedRetryLoop [strChars "10.0.0.1:7000", strChars "10.0.0.2:7001"]
        { expectation := none, transform := none }
        [.err (strChars "MOVED 100 10.0.0.1:7000"),
         .err (strChars "MOVED 200 10.0.0.2:7001"),
         .val (.bytes (strBytes "OK"))] =
      (2, .resolvedResult (.raw (.bytes (strBytes "OK")))) := rfl

/-- C4 as amended: every `MOVED` reply whose target node is in the cluster
table triggers exactly one further re-dispatch of the same call, with no
per-call bound — the count for a call is one more than the count over the
remaining replies. -/
theorem c4_each_moved_triggers_one_redispatch (cluster : List (List Char))
    (cmd : CommandSpec) (msg : List Char) (rest : List Reply)
    (hm : startsWithStr "MOVED " msg = true)
    (hk : cluster.contains (movedTargetName msg) = true) :
    movedRetryLoop cluster cmd (.err msg :: rest) =
      ((movedRetryLoop cluster cmd rest).1 + 1, (movedRetryLoop cluster cmd rest).2) := by
  have hmem : movedTargetName msg ∈ cluster := by simpa using hk
  simp [movedRetryLoop, onClusterDataMoved, hm, hmem]

theorem c4_each_moved_triggers_one_redispatch_witness :
    movedRetryLoop [strChars "10.0.0.1:7000"] { expectation := none, transform := none }
        [.err (strChars "MOVED 100 10.0.0.1:7000")] =
      ((movedRetryLoop [strChars "10.0.0.1:7000"]
          { expectation := none, transform := none } []).1 + 1,
       (movedRetryLoop [strChars "10.0.0.1:7000"]
          { expectation := none, transform := none } []).2) :=
  c4_each_moved_triggers_one_redispatch _ _ _ _ rfl rfl

/-- C5 counterexample: a `MOVED` reply naming a node with no connection in
the cluster table raises `ConnectionError` — the call fails precisely
because the node is not in the topology table, and no connection is
created. -/
theorem c5_moved_unknown_node_raises :
    onClusterDataMoved [strChars "10.0.0.1:7000"] (strChars "MOVED 1234 10.0.0.2:7001") =
      .connErrorRaised (strChars "10.0.0.2:7001 is not connected") := rfl

/-- C5 as amended: `_on_cluster_data_moved` re-binds and re-executes the
command when a connection for the indicated node exists, and raises
`ConnectionError` (never lazily creating a connection) when none does. -/
theorem c5_moved_lookup_behavior (cluster : List (List Char)) (response : List Char) :
    (cluster.contains (movedTargetName response) = true →
      onClusterDataMoved cluster response = .redispatch (movedTargetName response)) ∧
    (cluster.contains (movedTargetName response) = false →
      onClusterDataMoved cluster response =
        .connErrorRaised (movedTargetName response ++ strChars " is not connected")) := by
  constructor
  · intro h
    have hmem : movedTargetName response ∈ cluster := by simpa using h
    simp [onClusterDataMoved, hmem]
  · intro h
    have hmem : movedTargetName response ∉ cluster := by simpa using h
    simp [onClusterDataMoved, hmem]

theorem c5_moved_lookup_behavior_witness :
    onClusterDataMoved [strChars "10.0.0.2:7001"] (strChars "MOVED 1234 10.0.0.2:7001") =
        .redispatch (movedTargetName (strChars "MOVED 1234 10.0.0.2:7001")) ∧
    onClusterDataMoved [] (strChars "MOVED 9 10.0.0.9:7009") =
      .connErrorRaised
        (movedTargetName (strChars "MOVED 9 10.0.0.9:7009") ++ strChars " is not connected") :=
  ⟨(c5_moved_lookup_behavior _ _).1 rfl, (c5_moved_lookup_behavior _ _).2 rfl⟩

/-- C6: for a non-empty batch with one reply outcome per command, the result
list pairs the k-th command's processor with the k-th reply (so it has
exactly N entries, an error reply is stored as its own entry's result
without touching later entries), and the pipeline flag and batch are
cleared. -/
theorem c6_pipeline_results (p : Bool) (cmds : List (List Nat × Option PipeProc))
    (replies : List (Except (List Char) RVal))
    (hne : cmds ≠ []) (hlen : replies.length = cmds.length) :
    pipelineExecute { pipeline := p, commands := cmds } replies =
      .ok (some (List.zipWith (fun c r => pipeEntry c.2 r) cmds replies),
        { pipeline := false, commands := [] }) ∧
    (List.zipWith (fun c r => pipeEntry c.2 r) cmds replies).length = cmds.length := by
  constructor
  · have h0 : ¬({ pipeline := p, commands := cmds } : PipeState).commands.length = 0 := by
      dsimp only
      intro hx
      exact hne (List.eq_nil_of_length_eq_zero hx)
    have hr : replies ≠ [] := by
      intro hx
      subst hx
      simp at hlen
      exact hne (List.eq_nil_of_length_eq_zero hlen.symm)
    unfold pipelineExecute
    rw [if_neg h0]
    dsimp only
    rw [pipelineLoop_spec cmds replies hr [] (by simpa using hlen)]
    simp
  · rw [List.length_zipWith, hlen]
    simp

theorem c6_pipeline_results_witness :
    pipelineExecute { pipeline := true, commands := pipeExampleCmds } pipeExampleReplies =
      .ok (some (List.zipWith (fun c r => pipeEntry c.2 r) pipeExampleCmds pipeExampleReplies),
        { pipeline := false, commands := [] }) ∧
    (List.zipWith (fun c r => pipeEntry c.2 r) pipeExampleCmds
        pipeExampleReplies).length = pipeExampleCmds.length :=
  c6_pipeline_results true pipeExampleCmds pipeExampleReplies (by simp [pipeExampleCmds]) rfl

/-- Concrete evaluation of the spec §8 pipeline example: three entries in
order, the middle one holding the error, the siblings unaffected, the batch
cleared. -/
theorem pipeline_example_eval :
    pipelineExecute { pipeline := true, commands := pipeExampleCmds } pipeExampleReplies =
      .ok (some [.processed true,
                 .exc (strChars "ERR value is not an integer or out of range"),
                 .raw (.bytes (strBytes "1"))],
        { pipeline := false, commands := [] }) := rfl

/-- C7 counterexample: a failed replication-status query resolves in a
re-raise inside the IOLoop callback that never touches the caller's future
(no connect error is surfaced); a reply with no master address likewise dies
with a `KeyError` after the old connection is closed. -/
theorem c7_failover_failure_not_surfaced :
    onReplicationInfo (.error (strChars "ConnectionError: closed")) =
        .raisedBeforeClose (strChars "ConnectionError: closed") ∧
    failoverTouchesCaller
        (onReplicationInfo (.error (strChars "ConnectionError: closed"))) = false ∧
    (formatInfoResponse (strBytes "# Replication\r\nrole:master\r\nconnected_slaves:0\r\n")).map
        (fun info => onReplicationInfo (.ok info)) = some .raisedAfterClose ∧
    (formatInfoResponse (strBytes "# Replication\r\nrole:master\r\nconnected_slaves:0\r\n")).map
        (fun info => failoverTouchesCaller (onReplicationInfo (.ok info))) = some false :=
  ⟨rfl, rfl, rfl, rfl⟩

/-- C7 as amended: when the replication-status query fails its exception is
re-raised before the old connection is closed, and when the reply lacks a
master address a `KeyError` is raised after the old connection is closed; in
both cases nothing is ever set on the original caller's future (the call
hangs instead of receiving a connect error). -/
theorem c7_failover_failure_behavior (e : List Char) (info : List (List Char × InfoVal))
    (hh : dictGet? info (strChars "master_host") = none) :
    onReplicationInfo (.error e) = .raisedBeforeClose e ∧
    failoverTouchesCaller (onReplicationInfo (.error e)) = false ∧
    failoverClosesOldConnection (onReplicationInfo (.error e)) = false ∧
    onReplicationInfo (.ok info) = .raisedAfterClose ∧
    failoverTouchesCaller (onReplicationInfo (.ok info)) = false ∧
    failoverClosesOldConnection (onReplicationInfo (.ok info)) = true := by
  have h1 : onReplicationInfo (.ok info) = .raisedAfterClose := by
    simp [onReplicationInfo, hh]
  refine ⟨rfl, rfl, rfl, h1, ?_, ?_⟩
  · rw [h1]
    rfl
  · rw [h1]
    rfl

theorem c7_failover_failure_behavior_witness :
    onReplicationInfo (.error (strChars "ConnectionError")) =
        .raisedBeforeClose (strChars "ConnectionError") ∧
    failoverTouchesCaller (onReplicationInfo (.error (strChars "ConnectionError"))) = false ∧
    failoverClosesOldConnection
        (onReplicationInfo (.error (strChars "ConnectionError"))) = false ∧
    onReplicationInfo (.ok []) = .raisedAfterClose ∧
    failoverTouchesCaller (onReplicationInfo (.ok [])) = false ∧
    failoverClosesOldConnection (onReplicationInfo (.ok [])) = true :=
  c7_failover_failure_behavior (strChars "ConnectionError") [] rfl

/-- C8 counterexample: `pipeline_start` called while a pipeline is already
active (one command captured) raises nothing and silently discards the
captured command. -/
theorem c8_pipeline_start_resets :
    pipelineStart
        ⟨true,
         [(buildCommand [.bytes (strBytes "SET"), .bytes (strBytes "a"),
             .bytes (strBytes "1")], some PipeProc.isOk)]⟩ =
      .ok { pipeline := true, commands := [] } := rfl

/-- C8 as amended: `pipeline_start` never fails; from any client state —
including one with a pipeline already active — it returns normally with the
pipeline flag set and the captured-command list reset to empty. -/
theorem c8_pipeline_start_behavior (st : PipeState) :
    pipelineStart st = .ok { pipeline := true, commands := [] } := rfl

/-- C9: for an integer expectation `n`, an integer reply `r` resolves to the
Python boolean `True` when `r = n` and to the raw reply otherwise, provided
`n > 1`; for `n ≤ 1` it resolves to the boolean `r == n`.  `KeysMixin.delete`
of three keys carries expectation 3, so a reply of 2 (two existing keys, one
missing) resolves to the raw integer 2. -/
theorem c9_expectation_coercion (n r : Int) :
    evalExpectation (.int n) (.int r) =
      (if 1 < n then (if r = n then CmdResult.pyBool true else .raw (.int r))
       else .pyBool (r == n)) ∧
    (deleteCommand [strBytes "k1", strBytes "k2", strBytes "k3"]).2 = .int 3 ∧
    evalExpectation (.int 3) (.int 2) = .raw (.int 2) := by
  refine ⟨?_, rfl, rfl⟩
  by_cases h : 1 < n <;> by_cases h2 : r = n <;>
    simp [evalExpectation, pyEqRE, h, h2]

/-- C10: a non-clustering client constructed with more than one host raises
`ValueError` before any connection attempt is made, whatever the
`auto_connect` flag. -/
theorem c10_too_many_hosts (hosts : List HostSpec) (autoConnect : Bool)
    (h : 1 < hosts.length) :
    clientInit hosts false autoConnect =
      (some (strChars "Too many hosts for non-clustering mode"), []) := by
  simp [clientInit, h]

theorem c10_too_many_hosts_witness :
    clientInit [{ host := strChars "127.0.0.1", port := 6379, db := 0 },
                { host := strChars "127.0.0.2", port := 6379, db := 0 }] false true =
      (some (strChars "Too many hosts for non-clustering mode"), []) :=
  c10_too_many_hosts _ _ (by decide)
